import Mathlib

/-!
Verification of the minnow-prototype DCP server against its specification.

The development shallowly embeds the relevant parts of the sources:
* `src/parser.py` — the binary wire codec (`Frame.parse`, `Frame.__bytes__`)
  and the JSON codec (`JSONFrame.parse`);
* `src/server.py` — the dispatch loop (`DCPServer.process`,
  `DCPProto.data_received`), error emission (`DCPProto.error`), signon
  completion (`DCPServer.user_enter`), `DCPServer.cmd_whois` and
  `DCPServer.ping_timeout`.

Bytes are modelled as `List Nat` (wire bytes are < 256), Python `str` values
as Lean `String`, Python dicts that map keys to lists of strings (the frame
`kval`) as insertion-ordered association lists.
-/

set_option maxRecDepth 8000

namespace DCP

/-- Modelled from the spec: `errors.py` is not among the sources.  §4.1/§7 of
the spec distinguish the parser failure kinds *incomplete*, *oversize* and
*invalid*; `src/parser.py` raises the classes `ParserIncompleteError`,
`ParserSizeError`, `ParserInvalidError` and `ParserValueError`, all subclasses
of `ParserError`.  Each constructor carries the message the source attaches. -/
inductive ParserError where
  | incomplete (msg : String)
  | size (msg : String)
  | invalid (msg : String)
  | value (msg : String)
  deriving DecidableEq

/-- `str(e)` — the message carried by a parser error. -/
def ParserError.msg : ParserError → String
  | .incomplete m => m
  | .size m => m
  | .invalid m => m
  | .value m => m

/-- `True` exactly on `ParserSizeError` results (the *oversize* kind). -/
def exceptIsSize {α : Type} : Except ParserError α → Bool
  | .error (.size _) => true
  | _ => false

/-- `True` on successful (`Except.ok`) results. -/
def exceptIsOk {ε α : Type} : Except ε α → Bool
  | .ok _ => true
  | .error _ => false

/-! ### Python string primitives

`bytes.decode('utf-8', 'replace')`, `str.encode('utf-8')` and `str.lower()`
as used by the codec.  The decoder is exact on ASCII and on valid UTF-8
(lone/invalid bytes become U+FFFD, consuming the offending lead byte and its
valid continuation prefix); `pylower` lowercases the ASCII range, which is
all this development exercises. -/

/-- A UTF-8 continuation byte (`0x80..0xBF`). -/
def isContByte (b : Nat) : Bool := decide (0x80 ≤ b ∧ b ≤ 0xBF)

/-- U+FFFD REPLACEMENT CHARACTER. -/
def replChar : Char := Char.ofNat 0xFFFD

/-- UTF-8 decoding with replacement, fuelled by the input length. -/
def pyUtf8DecodeAux : Nat → List Nat → List Char
  | 0, _ => []
  | _, [] => []
  | fuel + 1, b :: rest =>
    if b ≤ 0x7F then
      Char.ofNat b :: pyUtf8DecodeAux fuel rest
    else if 0xC2 ≤ b ∧ b ≤ 0xDF then
      match rest with
      | c1 :: r2 =>
        if isContByte c1 then
          Char.ofNat ((b - 0xC0) * 64 + (c1 - 0x80)) :: pyUtf8DecodeAux fuel r2
        else replChar :: pyUtf8DecodeAux fuel rest
      | [] => [replChar]
    else if 0xE0 ≤ b ∧ b ≤ 0xEF then
      match rest with
      | c1 :: c2 :: r2 =>
        if (if b = 0xE0 then decide (0xA0 ≤ c1 ∧ c1 ≤ 0xBF)
            else if b = 0xED then decide (0x80 ≤ c1 ∧ c1 ≤ 0x9F)
            else isContByte c1) && isContByte c2 then
          Char.ofNat ((b - 0xE0) * 4096 + (c1 - 0x80) * 64 + (c2 - 0x80)) ::
            pyUtf8DecodeAux fuel r2
        else replChar :: pyUtf8DecodeAux fuel rest
      | _ => [replChar]
    else if 0xF0 ≤ b ∧ b ≤ 0xF4 then
      match rest with
      | c1 :: c2 :: c3 :: r2 =>
        if (if b = 0xF0 then decide (0x90 ≤ c1 ∧ c1 ≤ 0xBF)
            else if b = 0xF4 then decide (0x80 ≤ c1 ∧ c1 ≤ 0x8F)
            else isContByte c1) && isContByte c2 && isContByte c3 then
          Char.ofNat ((b - 0xF0) * 262144 + (c1 - 0x80) * 4096 +
              (c2 - 0x80) * 64 + (c3 - 0x80)) :: pyUtf8DecodeAux fuel r2
        else replChar :: pyUtf8DecodeAux fuel rest
      | _ => [replChar]
    else replChar :: pyUtf8DecodeAux fuel rest

/-- `bytes.decode('utf-8', 'replace')`. -/
def pydecode (bs : List Nat) : String := ⟨pyUtf8DecodeAux bs.length bs⟩

/-- `str.lower()` on one character (ASCII range). -/
def pylowerChar (c : Char) : Char :=
  if 65 ≤ c.toNat ∧ c.toNat ≤ 90 then Char.ofNat (c.toNat + 32) else c

/-- `str.lower()`. -/
def pylower (s : String) : String := ⟨s.data.map pylowerChar⟩

/-- UTF-8 encoding of one code point. -/
def utf8EncodeCodepoint (n : Nat) : List Nat :=
  if n < 0x80 then [n]
  else if n < 0x800 then [0xC0 + n / 64, 0x80 + n % 64]
  else if n < 0x10000 then [0xE0 + n / 4096, 0x80 + n / 64 % 64, 0x80 + n % 64]
  else [0xF0 + n / 262144, 0x80 + n / 4096 % 64, 0x80 + n / 64 % 64, 0x80 + n % 64]

/-- `str.encode('utf-8')`. -/
def pyencode (s : String) : List Nat :=
  s.data.flatMap fun c => utf8EncodeCodepoint c.toNat

/-! ### The binary dialect (`src/parser.py`, class `Frame`) -/

/-- `MAXFRAME = 1400`. -/
def MAXFRAME : Nat := 1400

/-- `text.endswith(b'\x00\x00')` — the binary dialect terminator check. -/
def endsWith00 (bs : List Nat) : Bool := [0, 0].isSuffixOf bs

/-- `text.endswith(b'\x00')` — the JSON dialect terminator check. -/
def endsWithZ (bs : List Nat) : Bool := [0].isSuffixOf bs

/-- `int.from_bytes(text[:2], 'big')` (the guard `len(text) >= 10` holds at
every use, so both bytes exist). -/
def llenOf (bs : List Nat) : Nat := 256 * bs.headD 0 + bs.tail.headD 0

/-- `bytes.split(b'\0')` — split on the NUL byte, keeping empty parts, as
Python's `split` with an explicit separator does (`b''` splits to `[b'']`).
Written with an accumulator so it evaluates in constant stack space. -/
def splitOnZeroAux : List Nat → List Nat → List (List Nat)
  | acc, [] => [acc.reverse]
  | acc, 0 :: rest => acc.reverse :: splitOnZeroAux [] rest
  | acc, b :: rest => splitOnZeroAux (b :: acc) rest

/-- `bytes.split(b'\0')`. -/
def splitOnZero (bs : List Nat) : List (List Nat) := splitOnZeroAux [] bs

/-- `text[3:].split(b'\0')` — tokens before the trailing-empty deletion. -/
def rawTokens (bs : List Nat) : List (List Nat) := splitOnZero (bs.drop 3)

/-- The token list after `if text[-1] == b'': del text[-1]`.  `splitOnZero`
never returns `[]`, matching Python where `text[-1]` cannot fail here. -/
def tokens (bs : List Nat) : List (List Nat) :=
  let t := rawTokens bs
  if t.getLast? = some [] then t.dropLast else t

/-- The tokens after the three header fields (`source`, `target`,
`command`). -/
def residualToks (bs : List Nat) : List (List Nat) := (tokens bs).drop 3

/-- `if (len(text) - 3) % 2: text.append(b'*')` — pad an odd residual token
list with a single `*` value. -/
def padIfOdd (r : List (List Nat)) : List (List Nat) :=
  if r.length % 2 = 1 then r ++ [[42]] else r

/-- The alternating key/value pairing (`zip` over the duplicated `islice`
iterator): keys are decoded and lowercased, values only decoded. -/
def pairUp : List (List Nat) → List (String × String)
  | k :: v :: rest => (pylower (pydecode k), pydecode v) :: pairUp rest
  | _ => []

/-- The key/value pairs the parser assigns to a byte string's key/value
section (after trailing-empty deletion and odd padding). -/
def pairsOf (bs : List Nat) : List (String × String) :=
  pairUp (padIfOdd (residualToks bs))

/-- Frame `kval`: an insertion-ordered map from key to list of values
(Python `defaultdict(list)`). -/
abbrev Kval := List (String × List String)

/-- `kval[k]` with a `defaultdict(list)` default. -/
def lookupD : Kval → String → List String
  | [], _ => []
  | (k', vs) :: rest, k => if k' = k then vs else lookupD rest k

/-- `kval[k].append(v)` — append `v` under `k`, creating the key at the end
of the dict (insertion order) if absent. -/
def kvAppend : Kval → String → String → Kval
  | [], k, v => [(k, [v])]
  | (k', vs) :: rest, k, v =>
    if k' = k then (k', vs ++ [v]) :: rest else (k', vs) :: kvAppend rest k v

/-- One step of the kval loop: `if v in kval[k]: raise ParserValueError(...)`
else `kval[k].append(v)`. -/
def kvStep (kv : Kval) (p : String × String) : Except ParserError Kval :=
  if p.2 ∈ lookupD kv p.1 then .error (.value "Duplicate value not allowed")
  else .ok (kvAppend kv p.1 p.2)

/-- The kval-building loop of `Frame.parse`, from a given starting dict. -/
def buildKvalFrom : Kval → List (String × String) → Except ParserError Kval
  | kv, [] => .ok kv
  | kv, p :: ps =>
    match kvStep kv p with
    | .error e => .error e
    | .ok kv1 => buildKvalFrom kv1 ps

/-- The kval-building loop of `Frame.parse` (starting from the empty
`defaultdict(list)`). -/
def buildKval (ps : List (String × String)) : Except ParserError Kval :=
  buildKvalFrom [] ps

/-- A decoded binary frame (`class Frame`). -/
structure Frame where
  source : String
  target : String
  command : String
  kval : Kval
  deriving DecidableEq

/-- `Frame.parse` (src/parser.py lines 39-84). -/
def Frame.parse (bs : List Nat) : Except ParserError Frame :=
  if endsWith00 bs = false ∨ bs.length < 10 then
    .error (.incomplete "Incomplete frame")
  else if MAXFRAME < llenOf bs then
    .error (.size "Frame is too large for the wire")
  else
    match tokens bs with
    | s :: t :: c :: rest =>
      if rest = [] then
        .ok ⟨pylower (pydecode s), pylower (pydecode t), pylower (pydecode c), []⟩
      else
        match buildKval (pairsOf bs) with
        | .error e => .error e
        | .ok kv =>
          .ok ⟨pylower (pydecode s), pylower (pydecode t), pylower (pydecode c), kv⟩
    | _ => .error (.invalid "Invalid DCP frame")

/-- `Frame._generic_len` — the length estimate used by `__len__`. -/
def Frame.genericLen (source target command : String) (kval : Kval) : Nat :=
  3 + source.length + 1 + target.length + 1 + command.length + 1 + 2 +
    (if kval.length > 0 then
      (kval.map fun p => (p.2.map fun v2 => p.1.length + v2.length + 2).sum).sum - 1
     else 0)

/-- The NUL character as a one-character Python string. -/
def zeroStr : String := String.singleton (Char.ofNat 0)

/-- `Frame.__bytes__` (src/parser.py lines 86-104): the size guard uses
`_generic_len`; the field list gets a trailing `'\0'` element before the
`'\0'.join`, so the encoded body ends in a double NUL; the declared length
is the joined string's character count plus 3. -/
def Frame.toBytes (f : Frame) : Except ParserError (List Nat) :=
  if MAXFRAME - 20 < Frame.genericLen f.source f.target f.command f.kval then
    .error (.size "Frame is too large")
  else
    let parts : List String :=
      [f.source, f.target, f.command] ++
        (f.kval.flatMap fun p => p.2.flatMap fun v2 => [p.1, v2]) ++ [zeroStr]
    let body : String := String.intercalate zeroStr parts
    let llen : Nat := body.length + 3
    .ok ([llen / 256, llen % 256] ++ [0] ++ pyencode body)

/-! ### The JSON dialect (`src/parser.py`, class `JSONFrame`)

The source defers JSON syntax to the standard library's `json.loads`, which
is outside this repository; the embedding therefore takes the loader as a
parameter `loads` and models loaded documents with `PyJson`.  (JSON numbers
are modelled as `Int`; no claim exercises them.) -/

/-- A loaded JSON document. -/
inductive PyJson where
  | null
  | bool (b : Bool)
  | num (n : Int)
  | str (s : String)
  | arr (xs : List PyJson)
  | obj (fields : List (String × PyJson))

/-- `load[0]` / `load[1]` — integer indexing; anything but an in-range list
index raises (string indexing also ends in a raised `TypeError` once the
header lookup runs, giving the same surviving behaviour). -/
def pyIndex : PyJson → Nat → Except String PyJson
  | .arr xs, i =>
    match xs.get? i with
    | some x => .ok x
    | none => .error "IndexError"
  | _, _ => .error "TypeError"

/-- `header['source']` etc. — key lookup on a JSON object; anything else
raises. -/
def pyGetKey : PyJson → String → Except String PyJson
  | .obj fs, k =>
    match fs.lookup k with
    | some v => .ok v
    | none => .error "KeyError"
  | _, _ => .error "TypeError"

/-- `len(load)` — only reached when `load` is a list here. -/
def pyLen : PyJson → Nat
  | .arr xs => xs.length
  | .obj fs => fs.length
  | .str s => s.length
  | _ => 0

/-- `defaultdict(list, load[1])` — building a dict from `load[1]`; anything
but a mapping raises (caught as a bad key/value section). -/
def pyToDict : PyJson → Except String (List (String × PyJson))
  | .obj fs => .ok fs
  | _ => .error "TypeError"

/-- `isinstance(val, list)` and `isinstance(val2, str)` for a kval value. -/
def isStrList : PyJson → Bool
  | .arr xs => xs.all fun x => match x with | .str _ => true | _ => false
  | _ => false

/-- A decoded JSON frame.  The source stores `header['source']` etc. without
type-checking them, so the fields keep their raw JSON values. -/
structure JSONFrame where
  source : PyJson
  target : PyJson
  command : PyJson
  kval : List (String × PyJson)

/-- `JSONFrame.parse` (src/parser.py lines 131-172).  Note the
`except Exception as e: raise ParserSizeError(str(e))` around `json.loads`:
a syntactically invalid document surfaces as the *size* error kind. -/
def JSONFrame.parse (loads : String → Except String PyJson) (bs : List Nat) :
    Except ParserError JSONFrame :=
  if endsWithZ bs = false ∨ bs.length < 10 then
    .error (.incomplete "Incomplete frame")
  else if bs.length < 20 then
    .error (.size "Frame is too small")
  else if MAXFRAME < bs.length then
    .error (.size "Frame is too large")
  else
    match loads (pydecode bs) with
    | .error e => .error (.size e)
    | .ok load =>
      match (do
          let h ← pyIndex load 0
          let s ← pyGetKey h "source"
          let t ← pyGetKey h "target"
          let c ← pyGetKey h "command"
          pure (s, t, c) : Except String (PyJson × PyJson × PyJson)) with
      | .error _ => .error (.invalid "Bad JSON frame header")
      | .ok (s, t, c) =>
        match (do
            let raw ← if 1 < pyLen load then pyIndex load 1 else pure (.obj [])
            pyToDict raw : Except String (List (String × PyJson))) with
        | .error _ => .error (.invalid "Bad JSON frame key/values")
        | .ok kv =>
          if kv.all fun p => isStrList p.2 then .ok ⟨s, t, c, kv⟩
          else .error (.invalid "Bad JSON frame key/values")

/-! ### Server layer (`src/server.py`)

`user.py`, `group.py` and `storage.py` are not among the sources; the small
pieces of them these claims touch (`User.send` forwarding to the session,
`User.has_acl` membership in the ACL set, the user attributes) are modelled
from the spec, §3 and §4.2. -/

/-- A Python argument value as it flows into `DCPProto.error`: the
`data_received` parser-failure handler passes a *dict* in the `fatal`
position and `False` in the `extargs` position, so the embedding keeps the
dynamic type. -/
inductive PyArg where
  | none
  | bool (b : Bool)
  | dict (d : Kval)
  deriving DecidableEq

/-- Python truthiness for the values above (a dict is truthy iff
nonempty). -/
def PyArg.truthy : PyArg → Bool
  | .none => false
  | .bool b => b
  | .dict d => !d.isEmpty

/-- The dict payload of an argument (only consulted under a truthy dict,
mirroring that `kval.update(extargs)` with a non-dict would raise). -/
def PyArg.getDict : PyArg → Kval
  | .dict d => d
  | _ => []

/-- `dict.update` — replace values of existing keys in place, append new
keys in order. -/
def pyUpdate : Kval → Kval → Kval
  | kv, [] => kv
  | kv, (k, v) :: rest =>
    pyUpdate (if (kv.lookup k).isSome
              then kv.map fun p => if p.1 = k then (k, v) else p
              else kv ++ [(k, v)]) rest

/-- The observable outcome of `DCPProto.error`: the kval of the emitted
`error` frame (sent from the server to the session's user) and whether the
transport was closed. -/
structure ErrorEffect where
  kval : Kval
  closed : Bool
  deriving DecidableEq

/-- `DCPProto.error` (src/server.py lines 498-509): build the kval, update
it with `extargs` when that is truthy, send, and close the transport when
`fatal` is truthy. -/
def DCPProto.error (command reason : String) (fatal extargs : PyArg) :
    ErrorEffect :=
  let kval : Kval := [("command", [command]), ("reason", [reason])]
  let kval := if extargs.truthy then pyUpdate kval extargs.getDict else kval
  ⟨kval, fatal.truthy⟩

/-- `'Internal server error (This isn\'t your fault)'` — assembled around an
explicit apostrophe character. -/
def internalErrMsg : String :=
  "Internal server error (This isn" ++ String.singleton (Char.ofNat 39) ++
    "t your fault)"

/-- The outcome of `DCPServer.process` (src/server.py lines 92-127).  The
body is `for line in parser.Frame.parse(data): ...`: `Frame.parse` returns a
single `Frame` object, and `Frame`/`BaseFrame` define neither `__iter__` nor
`__getitem__`, so whenever parsing succeeds the `for` statement raises
`TypeError` before any `cmd_*` handler can be looked up (the loop body —
hyphen-to-underscore canonicalisation, `getattr(self, 'cmd_' + command)`,
registration guard, handler call — is unreachable).  A `ParserError` raised
by `parse` propagates to the caller. -/
inductive ProcessResult where
  | parserError (e : ParserError)
  | typeError
  deriving DecidableEq

/-- `DCPServer.process`. -/
def DCPServer.process (data : List Nat) : ProcessResult :=
  match Frame.parse data with
  | .error e => .parserError e
  | .ok _ => .typeError

/-- The `try/except` around `server.process` in `DCPProto.data_received`
(src/server.py lines 469-475): a `ParserError` is answered with
`self.error('*', 'Parser failure', {'reason': [str(e)]}, False)` — note the
dict lands in the `fatal` parameter and `False` in `extargs` — and any other
exception with `self.error('*', 'Internal server error ...')`, whose `fatal`
defaults to `True`. -/
def dataReceivedReact : ProcessResult → ErrorEffect
  | .parserError e =>
    DCPProto.error "*" "Parser failure" (.dict [("reason", [e.msg])]) (.bool false)
  | .typeError => DCPProto.error "*" internalErrMsg (.bool true) .none

/-- The buffer logic at the top of `DCPProto.data_received`: returns the
bytes handed to `server.process` (`none` when everything stays buffered) and
the new buffer.  `rpartitionIdx` models `bytes.rpartition(b'\x00\x00')` by
the start index of the last occurrence of the separator. -/
def rpartitionIdx (bs : List Nat) : Option Nat :=
  (List.range (bs.length - 1)).reverse.find? fun i =>
    decide ((bs.drop i).take 2 = [0, 0])

/-- `DCPProto.data_received` buffer splitting (src/server.py lines 458-467). -/
def dataReceivedSplit (buf data : List Nat) : Option (List Nat) × List Nat :=
  let d := buf ++ data
  if endsWith00 d = true then (some d, [])
  else
    match rpartitionIdx d with
    | some i => (some (d.take (i + 2)), d.drop (i + 2))
    | none => (none, d)

/-- An effect in the `user_enter` trace. -/
inductive SEffect where
  | registered (name : String)
  | cancelTimer (name : String)
  | sent (source target command : String) (kval : Kval)
  | raised (exnClass : String)
  deriving DecidableEq

/-- Is this a `send` of the given command? -/
def SEffect.isCmdSend : SEffect → String → Bool
  | .sent _ _ c _, cmd => c == cmd
  | _, _ => false

/-- The kval of the `signon` frame built in `user_enter`. -/
def signonKval (serverName : String) (now : Nat) : Kval :=
  [("name", [serverName]), ("time", [toString now]),
   ("version", ["Minnow prototype server", "v0.1-prealpha"]), ("options", [])]

/-- `DCPServer.user_enter` (src/server.py lines 129-150) as the trace of its
effects: record the user in `self.users`, cancel the signon timer, send the
`signon` frame (source `=<serverName>`, target the user, per §4.2's
translation rule, `User.send` forwarding to the session being modelled from
the spec), and then evaluate `self.cmd_motd(user, line)` — but `line` is not
bound anywhere in `user_enter` (not a parameter, not assigned, no global), so
the call raises `NameError` before `cmd_motd` runs; the trace ends there and
the ping-timeout arming below it is unreachable.  `now` stands for
`round(time.time())`. -/
def DCPServer.user_enter (serverName userName : String) (now : Nat) :
    List SEffect :=
  [.registered userName,
   .cancelTimer "signon",
   .sent ("=" ++ serverName) userName "signon" (signonKval serverName now),
   .raised "NameError"]

/-- Modelled from the spec: the user record of `user.py` (§3 **User.**), with
the attributes `cmd_whois` reads; `groups` keeps each group's name and its
`private` property (`group.py` is also absent). -/
structure GroupR where
  name : String
  isPrivate : Bool
  deriving DecidableEq

/-- Modelled from the spec: a user (§3). -/
structure UserR where
  name : String
  gecos : String
  acl : List String
  groups : List GroupR
  deriving DecidableEq

/-- Modelled from the spec: `User.has_acl` — membership in the user's ACL
set. -/
def UserR.has_acl (u : UserR) (a : String) : Bool := u.acl.contains a

/-- `str.startswith(...)` — prefix test on code points. -/
def pyStartsWith (s pre : String) : Bool := pre.data.isPrefixOf s.data

/-- Python string `<=`: lexicographic on code points. -/
def listLexLe : List Char → List Char → Bool
  | [], _ => true
  | _ :: _, [] => false
  | a :: as, b :: bs =>
    if a.toNat < b.toNat then true
    else if b.toNat < a.toNat then false
    else listLexLe as bs

/-- Python string `<=`. -/
def strLe (a b : String) : Bool := listLexLe a.data b.data

/-- `sorted(...)` on a list of strings (stable ascending insertion sort). -/
def insertLe (v : String) : List String → List String
  | [] => [v]
  | x :: xs => if strLe v x then v :: x :: xs else x :: insertLe v xs

/-- `sorted(user.acl)`. -/
def pySorted : List String → List String
  | [] => []
  | x :: xs => insertLe x (pySorted xs)

/-- The outcome of `cmd_whois`: a non-fatal error back to the requester, or
a `whois` frame delivered via `user.send` — where `user` has been rebound. -/
inductive WhoisOut where
  | err (reason : String)
  | reply (recipient : String) (kval : Kval)
  deriving DecidableEq

/-- `DCPServer.cmd_whois` (src/server.py lines 314-341).  After the target
checks the source executes `user = self.users[target]`, rebinding `user` from
the requester to the target; every later `user.…` — the `user:auspex` ACL
check guarding the `acl` key, the `groups` filter, and the final
`user.send(self, user, 'whois', kval)` — therefore consults and addresses
the *target*.  Group objects placed in the `groups` value are rendered by
name. -/
def DCPServer.cmd_whois (users : List (String × UserR)) (requester : UserR)
    (target : String) : WhoisOut :=
  if target = "*" ∨ pyStartsWith target "=" = true ∨ pyStartsWith target "#" = true then
    .err "No valid target"
  else
    match users.lookup target with
    | Option.none => .err "No such user"
    | some u =>
      let kval : Kval := [("handle", [u.name]), ("gecos", [u.gecos])]
      let kval := if u.has_acl "user:auspex"
                  then kval ++ [("acl", pySorted u.acl)] else kval
      let kval := if u.groups.isEmpty then kval
                  else kval ++ [("groups",
                    (u.groups.filter fun g =>
                      !(g.isPrivate && !(u.has_acl "user:auspex"))).map
                        fun g => g.name)]
      .reply u.name kval

/-- The effect of the fatal `self.error(user, 'ping', 'Ping timeout')`:
`DCPServer.error` reaches `proto.error('ping', 'Ping timeout', True, None)`. -/
def pingTimeoutEffect : ErrorEffect :=
  DCPProto.error "ping" "Ping timeout" (.bool true) .none

/-- One tick of the liveness timer. -/
inductive PingOut where
  | fatal (eff : ErrorEffect)
  | ping (kval : Kval) (timeoutFlag : Bool) (schedCentisec : Nat)
  deriving DecidableEq

/-- The inclusive range of `randint(4500, 6000)` — the centisecond values the
reschedule delay can take (`sched = randint(4500, 6000) / 100` seconds). -/
def pingJitterRange : Finset ℕ := Finset.Icc 4500 6000

/-- `DCPServer.ping_timeout` (src/server.py lines 395-408): if the pending
flag is set, emit the fatal "Ping timeout" error (closing the transport);
otherwise send `ping` with the rounded unix time, set the flag, and
reschedule after `r / 100` seconds, `r` being the value `randint(4500, 6000)`
returned (kept in centiseconds here).  `now` stands for
`round(time.time())`. -/
def DCPServer.ping_timeout (timeoutFlag : Bool) (now : Nat) (r : Nat) :
    PingOut :=
  if timeoutFlag then .fatal pingTimeoutEffect
  else .ping [("time", [toString now])] true r

/-! ### Properties of the kval-building loop -/

/-- The values the input pairs carry under key `k`, in order. -/
def valsOf (k : String) (ps : List (String × String)) : List String :=
  (ps.filter fun p => p.1 == k).map Prod.snd

/-- How often the pair `(k, v)` occurs among the input pairs. -/
def countPair (ps : List (String × String)) (k v : String) : Nat :=
  (ps.filter fun p => p.1 == k && p.2 == v).length

/-- The (lowercased, decoded) key the padding pairs with `*`: the last
residual token. -/
def lastKeyOf (bs : List Nat) : String :=
  pylower (pydecode ((residualToks bs).getLastD []))

/-- The kval of a successfully parsed frame (`[]` when parsing failed). -/
def parsedKval (bs : List Nat) : Kval :=
  match Frame.parse bs with
  | .ok f => f.kval
  | .error _ => []

theorem valsOf_nil (k : String) : valsOf k [] = [] := rfl

theorem valsOf_cons_self (k v : String) (ps : List (String × String)) :
    valsOf k ((k, v) :: ps) = v :: valsOf k ps := by
  simp [valsOf]

theorem valsOf_cons_ne (k k0 v : String) (ps : List (String × String))
    (h : ¬ k0 = k) : valsOf k ((k0, v) :: ps) = valsOf k ps := by
  simp [valsOf, h]

theorem lookupD_nil (k : String) : lookupD [] k = [] := rfl

theorem lookupD_cons (k1 : String) (vs : List String) (rest : Kval) (k : String) :
    lookupD ((k1, vs) :: rest) k = if k1 = k then vs else lookupD rest k := rfl

theorem lookupD_kvAppend (kv : Kval) (k0 v0 : String) :
    ∀ k, lookupD (kvAppend kv k0 v0) k =
      if k = k0 then lookupD kv k0 ++ [v0] else lookupD kv k := by
  induction kv with
  | nil =>
    intro k
    by_cases h : k = k0
    · subst h; simp [kvAppend, lookupD_cons, lookupD_nil]
    · simp [kvAppend, lookupD_cons, lookupD_nil, h, Ne.symm h]
  | cons p rest ih =>
    intro k
    obtain ⟨k1, vs⟩ := p
    by_cases h1 : k1 = k0
    · subst h1
      rw [show kvAppend ((k1, vs) :: rest) k1 v0 = (k1, vs ++ [v0]) :: rest from
            by simp [kvAppend]]
      by_cases h2 : k = k1
      · subst h2; simp [lookupD_cons]
      · simp [lookupD_cons, h2, Ne.symm h2]
    · rw [show kvAppend ((k1, vs) :: rest) k0 v0 =
            (k1, vs) :: kvAppend rest k0 v0 from by simp [kvAppend, h1]]
      by_cases h2 : k1 = k
      · subst h2
        simp [lookupD_cons, h1]
      · simp [lookupD_cons, h1, h2, ih k]

/-- A successful run of the kval loop: if, per key, the values already
recorded followed by the incoming values are duplicate-free, the loop
succeeds and each key's final value list is the initial one extended by the
incoming values in order. -/
theorem buildKvalFrom_ok (ps : List (String × String)) :
    ∀ kv0 : Kval, (∀ k, (lookupD kv0 k ++ valsOf k ps).Nodup) →
      ∃ kv, buildKvalFrom kv0 ps = .ok kv ∧
        ∀ k, lookupD kv k = lookupD kv0 k ++ valsOf k ps := by
  induction ps with
  | nil =>
    intro kv0 _
    exact ⟨kv0, rfl, fun k => by simp [valsOf_nil]⟩
  | cons p ps ih =>
    intro kv0 h
    obtain ⟨k0, v0⟩ := p
    have hk0 := h k0
    rw [valsOf_cons_self] at hk0
    have hnotmem : v0 ∉ lookupD kv0 k0 := by
      rcases List.nodup_append.mp hk0 with ⟨-, -, hdisj⟩
      exact fun hm => hdisj hm (List.mem_cons_self _ _)
    have hstep : kvStep kv0 (k0, v0) = .ok (kvAppend kv0 k0 v0) := by
      simp [kvStep, hnotmem]
    have hnext : ∀ k, (lookupD (kvAppend kv0 k0 v0) k ++ valsOf k ps).Nodup := by
      intro k
      rw [lookupD_kvAppend]
      by_cases hk : k = k0
      · subst hk
        rw [if_pos rfl, List.append_assoc, List.singleton_append]
        exact hk0
      · rw [if_neg hk]
        have hv := h k
        rwa [valsOf_cons_ne _ _ _ _ (Ne.symm hk)] at hv
    obtain ⟨kv, hfold, hlook⟩ := ih (kvAppend kv0 k0 v0) hnext
    refine ⟨kv, ?_, ?_⟩
    · rw [show buildKvalFrom kv0 ((k0, v0) :: ps) =
            buildKvalFrom (kvAppend kv0 k0 v0) ps from by
              simp [buildKvalFrom, hstep]]
      exact hfold
    · intro k
      rw [hlook k, lookupD_kvAppend]
      by_cases hk : k = k0
      · subst hk
        rw [if_pos rfl, valsOf_cons_self, List.append_assoc,
            List.singleton_append]
      · rw [if_neg hk, valsOf_cons_ne _ _ _ _ (Ne.symm hk)]

/-- A failing run: if the initial per-key value lists are duplicate-free but
some key's combined (initial ++ incoming) value list has a duplicate, the
loop raises. -/
theorem buildKvalFrom_err (ps : List (String × String)) :
    ∀ kv0 : Kval, (∀ k1, (lookupD kv0 k1).Nodup) →
      ∀ k, ¬ (lookupD kv0 k ++ valsOf k ps).Nodup →
        ∃ e, buildKvalFrom kv0 ps = .error e := by
  induction ps with
  | nil =>
    intro kv0 hwf k h
    exact absurd (by simpa [valsOf_nil] using hwf k) h
  | cons p ps ih =>
    intro kv0 hwf k h
    obtain ⟨k0, v0⟩ := p
    by_cases hv : v0 ∈ lookupD kv0 k0
    · refine ⟨.value "Duplicate value not allowed", ?_⟩
      simp [buildKvalFrom, kvStep, hv]
    · have hstep : kvStep kv0 (k0, v0) = .ok (kvAppend kv0 k0 v0) := by
        simp [kvStep, hv]
      have hwf1 : ∀ k1, (lookupD (kvAppend kv0 k0 v0) k1).Nodup := by
        intro k1
        rw [lookupD_kvAppend]
        by_cases hk : k1 = k0
        · subst hk
          rw [if_pos rfl]
          refine List.nodup_append.mpr ⟨hwf _, List.nodup_singleton v0, ?_⟩
          intro a ha hb
          rw [List.mem_singleton] at hb
          exact hv (hb ▸ ha)
        · rw [if_neg hk]; exact hwf k1
      have hviol : ¬ (lookupD (kvAppend kv0 k0 v0) k ++ valsOf k ps).Nodup := by
        rw [lookupD_kvAppend]
        by_cases hk : k = k0
        · subst hk
          rw [if_pos rfl, List.append_assoc, List.singleton_append]
          intro hc
          apply h
          rwa [valsOf_cons_self]
        · rw [if_neg hk]
          intro hc
          apply h
          rwa [valsOf_cons_ne _ _ _ _ (Ne.symm hk)]
      obtain ⟨e, he⟩ := ih (kvAppend kv0 k0 v0) hwf1 k hviol
      refine ⟨e, ?_⟩
      rw [show buildKvalFrom kv0 ((k0, v0) :: ps) =
            buildKvalFrom (kvAppend kv0 k0 v0) ps from by
              simp [buildKvalFrom, hstep]]
      exact he

/-- The kval loop raises only the duplicate-value kind. -/
theorem buildKvalFrom_error_isValue (ps : List (String × String)) :
    ∀ (kv0 : Kval) (e : ParserError), buildKvalFrom kv0 ps = .error e →
      ∃ m, e = .value m := by
  induction ps with
  | nil =>
    intro kv0 e h
    simp [buildKvalFrom] at h
  | cons p ps ih =>
    intro kv0 e h
    cases hs : kvStep kv0 p with
    | error e1 =>
      have h1 : Except.error (α := Kval) e1 = Except.error e := by
        rw [show buildKvalFrom kv0 (p :: ps) = .error e1 from by
              simp [buildKvalFrom, hs]] at h
        exact h.symm ▸ rfl
      have h2 : e1 = e := by cases h1; rfl
      subst h2
      unfold kvStep at hs
      split at hs
      · exact ⟨"Duplicate value not allowed", by cases hs; rfl⟩
      · cases hs
    | ok kv1 =>
      apply ih kv1 e
      rw [show buildKvalFrom kv0 (p :: ps) = buildKvalFrom kv1 ps from by
            simp [buildKvalFrom, hs]] at h
      exact h

/-! ### Properties of the odd-token padding -/

theorem pydecode_star : pydecode [42] = "*" := rfl

theorem pairUp_append_even : ∀ (n : Nat) (r1 r2 : List (List Nat)),
    r1.length ≤ n → r1.length % 2 = 0 →
    pairUp (r1 ++ r2) = pairUp r1 ++ pairUp r2
  | _, [], _, _, _ => by simp [pairUp]
  | _, [_], _, _, hp => by simp at hp
  | 0, _ :: _ :: _, _, h, _ => by simp only [List.length_cons] at h; omega
  | n + 1, k :: v :: r, r2, h, hp => by
    have hr : r.length ≤ n := by simp only [List.length_cons] at h; omega
    have hp2 : r.length % 2 = 0 := by simp only [List.length_cons] at hp; omega
    have ihp := pairUp_append_even n r r2 hr hp2
    simp only [List.cons_append, pairUp, List.append_eq, ihp]

/-- Padding an odd token list appends exactly the pair
`(<last token>, "*")`. -/
theorem pairUp_pad_of_odd (r : List (List Nat)) (h : r.length % 2 = 1) :
    pairUp (r ++ [[42]]) =
      pairUp r.dropLast ++ [(pylower (pydecode (r.getLastD [])), "*")] := by
  have hne : r ≠ [] := by
    intro he; subst he; simp at h
  have hdecomp := List.dropLast_append_getLast hne
  have hlast : r.getLastD [] = r.getLast hne := by
    rw [List.getLastD_eq_getLast?, List.getLast?_eq_getLast _ hne]
    rfl
  have heven : r.dropLast.length % 2 = 0 := by
    rw [List.length_dropLast]; omega
  conv_lhs => rw [← hdecomp, List.append_assoc]
  rw [pairUp_append_even r.dropLast.length r.dropLast _ le_rfl heven]
  rw [hlast]
  rfl

theorem mem_valsOf (k v : String) (ps : List (String × String))
    (h : (k, v) ∈ ps) : v ∈ valsOf k ps := by
  unfold valsOf
  exact List.mem_map_of_mem _ (List.mem_filter.mpr ⟨h, by simp⟩)

theorem valsOf_nodup_of_nodup (k : String) (ps : List (String × String))
    (h : ps.Nodup) : (valsOf k ps).Nodup := by
  unfold valsOf
  refine (h.filter _).map_on ?_
  intro x hx y hy hxy
  obtain ⟨x1, x2⟩ := x
  obtain ⟨y1, y2⟩ := y
  have hxk := (List.mem_filter.mp hx).2
  have hyk := (List.mem_filter.mp hy).2
  simp only [decide_eq_true_eq] at hxk hyk
  simp only [Prod.snd] at hxy
  simp_all

theorem countPair_cons (k1 v1 k v : String) (ps : List (String × String)) :
    countPair ((k1, v1) :: ps) k v =
      (if k1 = k ∧ v1 = v then 1 else 0) + countPair ps k v := by
  by_cases hk : k1 = k <;> by_cases hv : v1 = v <;>
    simp [countPair, hk, hv, Nat.add_comm]

theorem mem_valsOf_of_countPair_pos (k v : String) :
    ∀ ps : List (String × String), 1 ≤ countPair ps k v → v ∈ valsOf k ps := by
  intro ps
  induction ps with
  | nil => intro h; simp [countPair] at h
  | cons p ps ih =>
    intro h
    obtain ⟨k1, v1⟩ := p
    rw [countPair_cons] at h
    by_cases hk : k1 = k
    · subst hk
      by_cases hv : v1 = v
      · subst hv
        rw [valsOf_cons_self]
        exact List.mem_cons_self _ _
      · rw [valsOf_cons_self]
        exact List.mem_cons_of_mem _ (ih (by simpa [hv] using h))
    · rw [valsOf_cons_ne _ _ _ _ hk]
      exact ih (by simpa [hk] using h)

theorem not_nodup_valsOf_of_two (k v : String) :
    ∀ ps : List (String × String), 2 ≤ countPair ps k v →
      ¬ (valsOf k ps).Nodup := by
  intro ps
  induction ps with
  | nil => intro h; simp [countPair] at h
  | cons p ps ih =>
    intro h hn
    obtain ⟨k1, v1⟩ := p
    rw [countPair_cons] at h
    by_cases hk : k1 = k
    · subst hk
      by_cases hv : v1 = v
      · subst hv
        rw [valsOf_cons_self] at hn
        rcases List.nodup_cons.mp hn with ⟨hmem, -⟩
        exact hmem (mem_valsOf_of_countPair_pos _ _ ps (by
          rw [if_pos (And.intro rfl rfl)] at h; omega))
      · rw [valsOf_cons_self] at hn
        rcases List.nodup_cons.mp hn with ⟨-, hnd⟩
        exact ih (by simpa [hv] using h) hnd
    · rw [valsOf_cons_ne _ _ _ _ hk] at hn
      exact ih (by simpa [hk] using h) hn

/-! ### Bridging lemmas for `Frame.parse` -/

theorem residualToks_eq (bs : List Nat) (s t c : List Nat)
    (rest : List (List Nat)) (htok : tokens bs = s :: t :: c :: rest) :
    residualToks bs = rest := by
  unfold residualToks
  rw [htok]
  simp

theorem tokens_decomp (bs : List Nat) (h : 3 < (tokens bs).length) :
    ∃ s t c rest, tokens bs = s :: t :: c :: rest ∧ rest ≠ [] := by
  rcases htok : tokens bs with _ | ⟨s, _ | ⟨t, _ | ⟨c, rest⟩⟩⟩
  · rw [htok] at h; simp at h
  · rw [htok] at h; simp at h
  · rw [htok] at h; simp at h
  · refine ⟨s, t, c, rest, rfl, ?_⟩
    intro he
    rw [htok, he] at h
    simp at h

/-! ### Claims about the binary codec -/

/-- C7: for every binary-dialect input whose key/value section contains the
same value string twice under the same (lowercased) key, parsing fails with
a parse error rather than returning a frame. -/
theorem c7_duplicate_value_fails_parse (bs : List Nat) (k v : String)
    (h : 2 ≤ countPair (pairsOf bs) k v) :
    exceptIsOk (Frame.parse bs) = false := by
  have hvio : ¬ (valsOf k (pairsOf bs)).Nodup :=
    not_nodup_valsOf_of_two k v (pairsOf bs) h
  unfold Frame.parse
  split
  · rfl
  · split
    · rfl
    · split
      next s t c rest heq =>
        by_cases hrest : rest = []
        · exfalso
          have hres := residualToks_eq bs s t c rest heq
          rw [hrest] at hres
          have hp : pairsOf bs = [] := by
            unfold pairsOf padIfOdd
            rw [hres]
            simp [pairUp]
          rw [hp] at h
          simp [countPair] at h
        · rw [if_neg hrest]
          obtain ⟨e, he⟩ := buildKvalFrom_err (pairsOf bs) []
            (fun k1 => by simp [lookupD_nil]) k
            (by simpa [lookupD_nil] using hvio)
          have he2 : buildKval (pairsOf bs) = .error e := he
          rw [he2]
          rfl
      next heq => rfl

/-- Witness for C7 at a concrete input repeating the pair `k`/`v`. -/
theorem c7_duplicate_value_fails_parse_witness :
    2 ≤ countPair
        (pairsOf [0, 18, 0, 97, 0, 98, 0, 99, 0, 107, 0, 118, 0, 107, 0, 118, 0, 0])
        "k" "v" ∧
    exceptIsOk
        (Frame.parse [0, 18, 0, 97, 0, 98, 0, 99, 0, 107, 0, 118, 0, 107, 0, 118, 0, 0]) =
      false :=
  ⟨by decide, c7_duplicate_value_fails_parse _ "k" "v" (by decide)⟩

/-- C6 (amended): the binary decoder yields the oversize error exactly when
the *declared* 16-bit length field exceeds 1400 — the actual byte length is
not checked against the limit; the JSON decoder does reject actual lengths
over 1400. -/
theorem c6_size_error_depends_on_declared_length :
    (∀ bs : List Nat, endsWith00 bs = true → 10 ≤ bs.length →
      (exceptIsSize (Frame.parse bs) = true ↔ MAXFRAME < llenOf bs)) ∧
    (∀ (loads : String → Except String PyJson) (bs : List Nat),
      endsWithZ bs = true → MAXFRAME < bs.length →
      exceptIsSize (JSONFrame.parse loads bs) = true) := by
  constructor
  · intro bs hend hlen
    constructor
    · intro hL
      by_contra h2
      revert hL
      unfold Frame.parse
      rw [if_neg (by rw [hend]; simp; omega), if_neg h2]
      intro hL
      split at hL
      next s t c rest heq =>
        by_cases hrest : rest = []
        · rw [if_pos hrest] at hL
          simp [exceptIsSize] at hL
        · rw [if_neg hrest] at hL
          cases hkv : buildKval (pairsOf bs) with
          | error e =>
            rw [hkv] at hL
            obtain ⟨m, hm⟩ := buildKvalFrom_error_isValue (pairsOf bs) [] e hkv
            subst hm
            simp [exceptIsSize] at hL
          | ok kv =>
            rw [hkv] at hL
            simp [exceptIsSize] at hL
      next heq => simp [exceptIsSize] at hL
    · intro h2
      unfold Frame.parse
      rw [if_neg (by rw [hend]; simp; omega), if_pos h2]
      rfl
  · intro loads bs hend hlen
    have h14 : 1400 < bs.length := hlen
    unfold JSONFrame.parse
    rw [if_neg (by rw [hend]; simp; omega), if_neg (by omega), if_pos hlen]
    rfl

/-- Witness for C6 at concrete inputs for both dialects (declared length
1500 for the binary part, actual length 1402 for the JSON part). -/
theorem c6_size_error_depends_on_declared_length_witness :
    (exceptIsSize (Frame.parse [5, 220, 0, 97, 0, 98, 0, 99, 0, 0]) = true ↔
      MAXFRAME < llenOf [5, 220, 0, 97, 0, 98, 0, 99, 0, 0]) ∧
    exceptIsSize (JSONFrame.parse (fun _ => .error "x")
      (List.replicate 1401 48 ++ [0])) = true :=
  ⟨c6_size_error_depends_on_declared_length.1 _ (by decide) (by decide),
   c6_size_error_depends_on_declared_length.2 _ _ (by decide) (by decide)⟩

/-- C6 counterexample: a 1401-byte terminated string whose declared length
field says 13 parses without any oversize error (it even succeeds), so
"longer than 1400 bytes yields the oversize error" is false of the decoder. -/
theorem c6_oversize_not_detected_counterexample :
    MAXFRAME <
      (([0, 13, 0] ++ List.replicate 1392 97 ++ [0, 98, 0, 99, 0, 0] : List Nat)).length ∧
    endsWith00 ([0, 13, 0] ++ List.replicate 1392 97 ++ [0, 98, 0, 99, 0, 0]) = true ∧
    exceptIsSize
        (Frame.parse ([0, 13, 0] ++ List.replicate 1392 97 ++ [0, 98, 0, 99, 0, 0])) =
      false ∧
    exceptIsOk
        (Frame.parse ([0, 13, 0] ++ List.replicate 1392 97 ++ [0, 98, 0, 99, 0, 0])) =
      true := by
  refine ⟨by norm_num [MAXFRAME], by decide, by decide, by decide⟩

/-- C8 (amended): an odd residual token list is padded with exactly one `*`
value, so the final key receives the value `*`; parsing then succeeds unless
the resulting pairs repeat a value under a key, in which case it fails with
the duplicate-value parse error. -/
theorem c8_odd_tokens_padded_star (bs : List Nat)
    (hend : endsWith00 bs = true) (hlen : 10 ≤ bs.length)
    (hllen : llenOf bs ≤ MAXFRAME)
    (hodd : (residualToks bs).length % 2 = 1)
    (hnd : (pairsOf bs).Nodup) :
    (pairsOf bs).getLast? = some (lastKeyOf bs, "*") ∧
    exceptIsOk (Frame.parse bs) = true ∧
    "*" ∈ lookupD (parsedKval bs) (lastKeyOf bs) := by
  have hpairs : pairsOf bs =
      pairUp (residualToks bs).dropLast ++ [(lastKeyOf bs, "*")] := by
    unfold pairsOf padIfOdd
    rw [if_pos hodd, pairUp_pad_of_odd _ hodd]
    rfl
  have hLast : (pairsOf bs).getLast? = some (lastKeyOf bs, "*") := by
    rw [hpairs]
    simp
  obtain ⟨kv, hkv, hlook⟩ := buildKvalFrom_ok (pairsOf bs) []
    (fun k => by
      simp only [lookupD_nil, List.nil_append]
      exact valsOf_nodup_of_nodup k _ hnd)
  have hkv2 : buildKval (pairsOf bs) = .ok kv := hkv
  have hmem : "*" ∈ lookupD kv (lastKeyOf bs) := by
    rw [hlook]
    simp only [lookupD_nil, List.nil_append]
    apply mem_valsOf
    rw [hpairs]
    exact List.mem_append_right _ (List.mem_singleton_self _)
  have hresne : residualToks bs ≠ [] := by
    intro he; rw [he] at hodd; simp at hodd
  have h3 : 3 < (tokens bs).length := by
    by_contra hle
    push_neg at hle
    apply hresne
    unfold residualToks
    exact List.drop_eq_nil_of_le hle
  obtain ⟨s, t, c, rest, htok, hrest⟩ := tokens_decomp bs h3
  have hparse : Frame.parse bs =
      .ok ⟨pylower (pydecode s), pylower (pydecode t), pylower (pydecode c), kv⟩ := by
    unfold Frame.parse
    rw [if_neg (by rw [hend]; simp; omega), if_neg (by omega)]
    simp only [htok]
    rw [if_neg hrest, hkv2]
  refine ⟨hLast, ?_, ?_⟩
  · rw [hparse]; rfl
  · unfold parsedKval
    rw [hparse]
    exact hmem

/-- Witness for C8 at a concrete input with an odd residual (the trailing
empty token left over from the double-NUL terminator). -/
theorem c8_odd_tokens_padded_star_witness :
    ((residualToks [0, 13, 0, 97, 0, 98, 0, 109, 111, 116, 100, 0, 0]).length % 2 = 1 ∧
     (pairsOf [0, 13, 0, 97, 0, 98, 0, 109, 111, 116, 100, 0, 0]).Nodup) ∧
    ((pairsOf [0, 13, 0, 97, 0, 98, 0, 109, 111, 116, 100, 0, 0]).getLast? =
        some (lastKeyOf [0, 13, 0, 97, 0, 98, 0, 109, 111, 116, 100, 0, 0], "*") ∧
     exceptIsOk (Frame.parse [0, 13, 0, 97, 0, 98, 0, 109, 111, 116, 100, 0, 0]) = true ∧
     "*" ∈ lookupD (parsedKval [0, 13, 0, 97, 0, 98, 0, 109, 111, 116, 100, 0, 0])
        (lastKeyOf [0, 13, 0, 97, 0, 98, 0, 109, 111, 116, 100, 0, 0])) :=
  ⟨⟨by decide, by decide⟩,
   c8_odd_tokens_padded_star _ (by decide) (by decide) (by decide) (by decide)
     (by decide)⟩

/-- C8 counterexample: an input whose residual token count is odd but whose
`*` padding duplicates the already-present pair `("", "*")`; parsing fails
instead of succeeding. -/
theorem c8_odd_tokens_counterexample :
    (residualToks [0, 13, 0, 97, 0, 98, 0, 99, 0, 0, 42, 0, 0]).length % 2 = 1 ∧
    exceptIsOk (Frame.parse [0, 13, 0, 97, 0, 98, 0, 99, 0, 0, 42, 0, 0]) = false := by
  decide

/-! ### Claims about the server layer -/

/-- C1: the read-buffer dispatch is broken.  For a complete valid binary
frame (command `motd`) `Frame.parse` succeeds, but `DCPServer.process`
raises `TypeError` iterating the returned non-iterable frame, so no handler
is invoked and `data_received` answers with a *fatal* internal-server-error
reply; two back-to-back frames are moreover mashed by the parser into a
single garbled frame instead of being decoded one by one. -/
theorem c1_complete_frames_not_dispatched :
    Frame.parse [0, 13, 0, 97, 0, 98, 0, 109, 111, 116, 100, 0, 0] =
      .ok ⟨"a", "b", "motd", [("", ["*"])]⟩ ∧
    DCPServer.process [0, 13, 0, 97, 0, 98, 0, 109, 111, 116, 100, 0, 0] =
      .typeError ∧
    dataReceivedReact .typeError =
      ⟨[("command", ["*"]), ("reason", [internalErrMsg])], true⟩ ∧
    Frame.parse ([0, 13, 0, 97, 0, 98, 0, 109, 111, 116, 100, 0, 0] ++
        [0, 13, 0, 97, 0, 98, 0, 109, 111, 116, 100, 0, 0]) =
      .ok ⟨"a", "b", "motd",
        [("", ["", "*"]), ("\r", ["a"]), ("b", ["motd"])]⟩ :=
  ⟨rfl, rfl, rfl, rfl⟩

/-- C2: a binary frame with declared length 1500 raises the oversize error,
but the `data_received` handler passes its extargs dict positionally into
the `fatal` parameter of `DCPProto.error`, so the transport is *closed*
(and the codec-derived reason is dropped from the reply). -/
theorem c2_parser_error_reply_closes_connection :
    Frame.parse [5, 220, 0, 97, 0, 98, 0, 99, 0, 0] =
      .error (.size "Frame is too large for the wire") ∧
    dataReceivedReact (DCPServer.process [5, 220, 0, 97, 0, 98, 0, 99, 0, 0]) =
      ⟨[("command", ["*"]), ("reason", ["Parser failure"])], true⟩ :=
  ⟨rfl, rfl⟩

/-- C3: every successful signon emits the `signon` frame whose kval carries
`name`, `time` and `version`, but `user_enter` then raises `NameError`
(unbound `line`) before `cmd_motd` can run: no `motd` frame is delivered. -/
theorem c3_signon_emits_signon_but_no_motd (serverName userName : String)
    (now : Nat) :
    DCPServer.user_enter serverName userName now =
      [.registered userName, .cancelTimer "signon",
       .sent ("=" ++ serverName) userName "signon" (signonKval serverName now),
       .raised "NameError"] ∧
    lookupD (signonKval serverName now) "name" = [serverName] ∧
    lookupD (signonKval serverName now) "time" = [toString now] ∧
    lookupD (signonKval serverName now) "version" =
      ["Minnow prototype server", "v0.1-prealpha"] ∧
    ((DCPServer.user_enter serverName userName now).filter
        fun e => e.isCmdSend "motd").length = 0 ∧
    (DCPServer.user_enter serverName userName now).getLast? =
      some (.raised "NameError") :=
  ⟨rfl, rfl, rfl, rfl, rfl, rfl⟩

/-- C4: whois on a valid online target.  `cmd_whois` rebinds `user` to the
*target*, so the `acl` key appears because the target (not the requester)
holds `user:auspex`, and the reply is sent to the target instead of the
requester. -/
theorem c4_whois_reply_goes_to_target :
    UserR.has_acl ⟨"alice", "Alice", [], []⟩ "user:auspex" = false ∧
    DCPServer.cmd_whois
        [("alice", ⟨"alice", "Alice", [], []⟩),
         ("bob", ⟨"bob", "Bob", ["user:auspex"], []⟩)]
        ⟨"alice", "Alice", [], []⟩ "bob" =
      .reply "bob"
        [("handle", ["bob"]), ("gecos", ["Bob"]), ("acl", ["user:auspex"])] ∧
    ("bob" : String) ≠ "alice" :=
  ⟨rfl, by decide, by decide⟩

/-- C5: the binary round trip fails even at a minimal frame whose encoding
is far under 1400 bytes: the encoder's trailing `'\0'` list element plus
the parser deleting only one of the two resulting empty tokens leaves an
empty token that the odd-padding turns into a spurious `"" → ["*"]` kval
entry, so `decode(encode(F)) ≠ F`. -/
theorem c5_roundtrip_adds_spurious_key :
    Frame.toBytes ⟨"a", "b", "motd", []⟩ =
      .ok [0, 13, 0, 97, 0, 98, 0, 109, 111, 116, 100, 0, 0] ∧
    Frame.parse [0, 13, 0, 97, 0, 98, 0, 109, 111, 116, 100, 0, 0] =
      .ok ⟨"a", "b", "motd", [("", ["*"])]⟩ ∧
    (⟨"a", "b", "motd", [("", ["*"])]⟩ : Frame) ≠ ⟨"a", "b", "motd", []⟩ :=
  ⟨rfl, rfl, by decide⟩

/-- C9 counterexample: `randint(4500, 6000)` is inclusive at both ends, so
the reschedule jitter is drawn from 1501 centisecond positions, not 1500. -/
theorem c9_interval_count_counterexample :
    pingJitterRange.card = 1501 ∧ pingJitterRange.card ≠ 1500 := by
  have h : pingJitterRange.card = 1501 := by
    unfold pingJitterRange
    rw [Nat.card_Icc]
  exact ⟨h, by rw [h]; norm_num⟩

/-- C9 (amended): on each ping tick, if the pending flag is set the server
emits the fatal "Ping timeout" error and closes; otherwise it sends `ping`
with the rounded unix time in `time`, sets the flag, and reschedules by a
centisecond count drawn uniformly from the inclusive range 4500..6000 —
1501 positions (45.00s to 60.00s inclusive). -/
theorem c9_ping_tick_behavior (t r : Nat) (hr : r ∈ pingJitterRange) :
    DCPServer.ping_timeout true t r =
      .fatal ⟨[("command", ["ping"]), ("reason", ["Ping timeout"])], true⟩ ∧
    DCPServer.ping_timeout false t r = .ping [("time", [toString t])] true r ∧
    4500 ≤ r ∧ r ≤ 6000 ∧ pingJitterRange.card = 1501 := by
  have hr2 := Finset.mem_Icc.mp hr
  refine ⟨rfl, rfl, hr2.1, hr2.2, ?_⟩
  unfold pingJitterRange
  rw [Nat.card_Icc]

/-- Witness for C9 at the lower end of the jitter range. -/
theorem c9_ping_tick_behavior_witness :
    (4500 : ℕ) ∈ pingJitterRange ∧
    DCPServer.ping_timeout false 0 4500 = .ping [("time", ["0"])] true 4500 :=
  ⟨Finset.mem_Icc.mpr (by norm_num),
   (c9_ping_tick_behavior 0 4500 (Finset.mem_Icc.mpr (by norm_num))).2.1⟩

/-- C10: a terminated JSON-dialect byte string of legal length (20..1400
bytes) whose content `json.loads` rejects raises the size-error kind
(`ParserSizeError(str(e))`), not the invalid-frame kind. -/
theorem c10_invalid_json_raises_size_error
    (loads : String → Except String PyJson) (bs : List Nat) (msg : String)
    (hend : endsWithZ bs = true) (h20 : 20 ≤ bs.length)
    (h14 : bs.length ≤ MAXFRAME)
    (hbad : loads (pydecode bs) = .error msg) :
    JSONFrame.parse loads bs = .error (.size msg) := by
  unfold JSONFrame.parse
  rw [if_neg (by rw [hend]; simp; omega), if_neg (by omega),
      if_neg (by omega), hbad]

/-- Witness for C10 at a concrete 20-byte terminated input and a loader
that rejects it. -/
theorem c10_invalid_json_raises_size_error_witness :
    JSONFrame.parse (fun _ => .error "Expecting value")
        (List.replicate 19 97 ++ [0]) =
      .error (.size "Expecting value") :=
  c10_invalid_json_raises_size_error _ _ _ (by decide) (by decide) (by decide)
    rfl

end DCP
